import Mathlib

/-!
Shallow embedding of the client-side core of the MLDPBS frontend
(`src/app/page.tsx`, with the sibling deployment variants in
`src/unnamed/part_000` and `src/unnamed/part_001`): CSV-slot validation,
the request payload shape, the fetch-with-deadline orchestration, the
embedded allocation-report parser, and the percentage-balance projection.
-/

namespace MLDPBS

/-! ## Data model for the validator (page.tsx lines 89-150) -/

/-- A parsed CSV row as produced by the external tokenizer (PapaParse with
`header: true`): a mapping from column name to raw string value, modelled
as an association list. -/
abbrev ParsedRow := List (String × String)

/-- Key membership in a row object, the embedding of the JS `"k" in row`
check (page.tsx lines 124-125). -/
def hasKey (r : ParsedRow) (k : String) : Bool :=
  r.any (fun p => p.1 == k)

/-- An uploaded file together with the outcome the external CSV tokenizer
(PapaParse) delivers for its bytes.  The tokenizer is an external
collaborator, so its result is an input of the embedding. -/
structure CSVFile where
  name : String
  parseOutcome : Except String (List ParsedRow)

/-- One element of the request payload pushed in page.tsx lines 134-138:
`{ name, data, entry_size }`.  `entry_size` is an `Option` because the
sibling variants (part_000 v2, part_001) omit the field, and a JS
`undefined` index is dropped by `JSON.stringify`. -/
structure Dataset where
  name : String
  data : List ParsedRow
  entry_size : Option Nat
deriving DecidableEq

/-- The value returned by `validateCSVFiles` (page.tsx line 91), extended
with the `setError` side effect (`error`) and, as instrumentation, the
ordered list of file names handed to `Papa.parse` (`tokenized`). -/
structure ValidationResult where
  valid : Bool
  datasets : List Dataset
  error : Option String
  tokenized : List String
deriving DecidableEq

/-- Error message of page.tsx line 97. -/
def missingFilesMsg : String := "Please upload all required CSV files."

/-- Error message of page.tsx line 102. -/
def notCsvMsg (n : String) : String := s!"File {n} is not a CSV file."

/-- Error message of page.tsx lines 140-144. -/
def parseFailMsg (n m : String) : String := s!"Error parsing file {n}: {m}"

/-- Error message of page.tsx lines 127-129. -/
def missingColsMsg (n : String) : String :=
  s!"File {n} is missing required columns 'Day No.' and/or 'Number of entries'."

/-- Split of a character list at every occurrence of `sep`, keeping empty
pieces, the semantics of JS `String.prototype.split` with a one-character
separator. -/
def splitCharsAux (sep : Char) : List Char → List Char → List (List Char)
  | [], acc => [acc.reverse]
  | c :: rest, acc =>
    if c = sep then acc.reverse :: splitCharsAux sep rest []
    else splitCharsAux sep rest (c :: acc)

/-- `s.split(sep)` for a one-character separator. -/
def jsSplit (sep : Char) (s : String) : List String :=
  (splitCharsAux sep s.toList []).map List.asString

/-- `xs.join(sep)` of JS arrays of strings. -/
def jsJoin (sep : String) : List String → String
  | [] => ""
  | [x] => x
  | x :: y :: rest => x ++ sep ++ jsJoin sep (y :: rest)

/-- `s.trim()`: whitespace stripped from both ends. -/
def jsTrim (s : String) : String :=
  List.asString (((s.toList.dropWhile Char.isWhitespace).reverse.dropWhile
    Char.isWhitespace).reverse)

/-- `s.endsWith(suffix)`. -/
def jsEndsWith (s suffix : String) : Bool :=
  suffix.toList.isSuffixOf s.toList

/-- `s.toLowerCase()` on ASCII text. -/
def jsToLower (s : String) : String :=
  List.asString (s.toList.map Char.toLower)

/-- `file.name.split(".").slice(0, -1).join(".")` of page.tsx line 135. -/
def stripExt (n : String) : String :=
  jsJoin "." ((jsSplit '.' n).dropLast)

/-- The required-column check of page.tsx lines 122-126: passes exactly
when `data[0]` exists and contains both required keys. -/
def checkCols (data : List ParsedRow) : Bool :=
  match data.head? with
  | none => false
  | some r => hasKey r "Day No." && hasKey r "Number of entries"

/-- Rows carried by a file whose tokenization succeeded. -/
def rowsOf (f : CSVFile) : List ParsedRow :=
  match f.parseOutcome with
  | .ok d => d
  | .error _ => []

/-- `file.name.toLowerCase().endsWith(".csv")` of page.tsx line 101. -/
def isCsvName (n : String) : Bool := jsEndsWith (jsToLower n) ".csv"

/-- The sequential slot loop of page.tsx lines 94-149.  One slot at a
time, in order; the first failing slot returns `{valid := false,
datasets := []}` with its error message; a passing slot contributes its
dataset (with `entry_size := entrySizes[i]`, here the head of the
remaining entry-size list) and the loop continues. -/
def validateGo : List Nat → List (Option CSVFile) → ValidationResult
  | _, [] => ⟨true, [], none, []⟩
  | es, f? :: fs =>
    match f? with
    | none => ⟨false, [], some missingFilesMsg, []⟩
    | some f =>
      if isCsvName f.name then
        match f.parseOutcome with
        | .error m => ⟨false, [], some (parseFailMsg f.name m), [f.name]⟩
        | .ok data =>
          if checkCols data then
            let rest := validateGo es.tail fs
            if rest.valid then
              ⟨true, ⟨stripExt f.name, data, es.head?⟩ :: rest.datasets, none,
                f.name :: rest.tokenized⟩
            else
              ⟨false, [], rest.error, f.name :: rest.tokenized⟩
          else ⟨false, [], some (missingColsMsg f.name), [f.name]⟩
      else ⟨false, [], some (notCsvMsg f.name), []⟩

/-- `validateCSVFiles` of page.tsx lines 89-150, with the `entrySizes`
component state passed explicitly. -/
def validateCSVFiles (entrySizes : List Nat) (files : List (Option CSVFile)) :
    ValidationResult :=
  validateGo entrySizes files

/-- Whether a single slot passes every check of the loop body. -/
def slotOk : Option CSVFile → Bool
  | none => false
  | some f =>
    isCsvName f.name &&
      (match f.parseOutcome with
       | .ok data => checkCols data
       | .error _ => false)

/-- The error message a single slot produces, `none` when it passes. -/
def slotError : Option CSVFile → Option String
  | none => some missingFilesMsg
  | some f =>
    if isCsvName f.name then
      match f.parseOutcome with
      | .error m => some (parseFailMsg f.name m)
      | .ok data => if checkCols data then none else some (missingColsMsg f.name)
    else some (notCsvMsg f.name)

/-- The files a single slot hands to `Papa.parse`: a present `.csv`-named
file is tokenized (even if tokenization then fails or columns are
missing); an absent slot or a non-CSV name is never read. -/
def slotReads : Option CSVFile → List String
  | none => []
  | some f => if isCsvName f.name then [f.name] else []

/-- Names of the present files in slot order. -/
def fileNames (files : List (Option CSVFile)) : List String :=
  files.filterMap (fun o => o.map CSVFile.name)

/-- Specification-side order-preserving mapping: the dataset each slot
contributes on the all-valid path, in slot order.  Used to state that the
loop preserves input order. -/
def expectedDatasets : List Nat → List (Option CSVFile) → List Dataset
  | _, [] => []
  | es, none :: fs => expectedDatasets es.tail fs
  | es, some f :: fs => ⟨stripExt f.name, rowsOf f, es.head?⟩ :: expectedDatasets es.tail fs

/-! ## Entry-size state (page.tsx lines 49-55 and 79-87) -/

/-- `setEntrySizes(Array(numFiles).fill(1))` of page.tsx line 53: every
slot's entry size starts at 1 before any user input. -/
def initialEntrySizes (n : Nat) : List Nat := List.replicate n 1

/-- Leading-decimal-digit parse, the fragment of JS `parseInt` exercised
by a numeric input field: `none` when no leading digit exists. -/
def jsParseInt (s : String) : Option Nat :=
  let ds := (jsTrim s).toList.takeWhile Char.isDigit
  if ds.isEmpty then none
  else some (ds.foldl (fun n c => 10 * n + (c.toNat - Char.toNat '0')) 0)

/-- `parseInt(e.target.value) || 1` of page.tsx line 83: `NaN` and `0`
are falsy, so both fall back to 1. -/
def parseIntOr1 (s : String) : Nat :=
  match jsParseInt s with
  | none => 1
  | some 0 => 1
  | some (k + 1) => k + 1

/-- `handleEntrySizeChange` of page.tsx lines 79-87. -/
def handleEntrySizeChange (sizes : List Nat) (index : Nat) (input : String) :
    List Nat :=
  sizes.set index (parseIntOr1 input)

/-! ## Allocation report parser (page.tsx lines 200-229) -/

/-- The parsed performance table stored by `setParsedResults` (page.tsx
lines 221-224). -/
structure AllocationTable where
  headers : List String
  data : List (List String)
deriving DecidableEq

/-- The loop state of page.tsx lines 203-205. -/
structure ParseState where
  inResults : Bool
  headerLine : Option (List String)
  resultsTable : List (List String)
deriving DecidableEq

/-- Substring search over character lists, the embedding of JS
`String.prototype.includes`. -/
def strIncludesAux (p : List Char) : List Char → Bool
  | [] => p.isPrefixOf []
  | c :: rest => p.isPrefixOf (c :: rest) || strIncludesAux p rest

/-- `line.includes(pat)` of page.tsx line 210. -/
def strIncludes (s pat : String) : Bool := strIncludesAux pat.toList s.toList

/-- One iteration of the `for (const line of lines)` loop, page.tsx
lines 207-218: marker check, then header check, then data-row check. -/
def parseLine (st : ParseState) (line : String) : ParseState :=
  if jsTrim line = "Results:" then { st with inResults := true }
  else if st.inResults = true ∧ strIncludes line "Block Size" = true then
    { st with headerLine := some (jsSplit '\t' (jsTrim line)) }
  else if st.inResults = true ∧ jsTrim line ≠ "" ∧ st.headerLine.isSome = true then
    if (jsSplit '\t' (jsTrim line)).length = (st.headerLine.getD []).length then
      { st with resultsTable := st.resultsTable ++ [jsSplit '\t' (jsTrim line)] }
    else st
  else st

/-- The loop's initial state (page.tsx lines 203-205). -/
def initState : ParseState := ⟨false, none, []⟩

/-- Full run of the line loop over `text.split("\n")` (page.tsx line 202). -/
def parseRun (text : String) : ParseState :=
  (jsSplit '\n' text).foldl parseLine initState

/-- The whole report-parsing block, page.tsx lines 200-225: the table is
produced only when a header line was seen and at least one row was
accepted; otherwise `parsedResults` stays null (absent). -/
def parseReport (text : String) : Option AllocationTable :=
  let st := parseRun text
  match st.headerLine with
  | some h => if st.resultsTable.isEmpty then none else some ⟨h, st.resultsTable⟩
  | none => none

/-! ## Orchestration (page.tsx lines 152-241) -/

/-- The response JSON as far as the core inspects it: the optional
embedded allocation report (page.tsx line 200). -/
structure RespJson where
  buddy_allocation_output : Option String
deriving DecidableEq

/-- External transport behaviour for one request: the wall-clock time at
which the transport would complete (or fail) and what it would deliver. -/
inductive TransportBehavior where
  | completes (time : Nat) (status : Nat) (bodyText : String) (json : RespJson)
  | fails (time : Nat) (message : String)

/-- When the transport would finish, successfully or not. -/
def behaviorTime : TransportBehavior → Nat
  | .completes t _ _ _ => t
  | .fails t _ => t

/-- What the awaited `fetch` call yields: a resolved response, or a
thrown JS error carrying its `name` and `message`. -/
inductive FetchOutcome where
  | resolved (status : Nat) (bodyText : String) (json : RespJson)
  | jsError (name : String) (message : String)
deriving DecidableEq

/-- The `message` of the DOMException thrown when the AbortController
fires. -/
def abortMessage : String := "The user aborted a request."

/-- The deadline of page.tsx line 173 (`setTimeout(() => controller.abort(),
1800000)`). -/
def requestTimeoutMs : Nat := 1800000

/-- Boundary model of `fetch` combined with the AbortController timer of
page.tsx lines 171-183: should the deadline elapse before the transport
completes, the timer aborts the in-flight call and the promise rejects
with a DOMException named `AbortError` — the transport's eventual result
is discarded and can never resolve the promise.  A network failure
before the deadline rejects with a `TypeError`. -/
def fetchWithTimeout (deadline : Nat) (b : TransportBehavior) : FetchOutcome :=
  match b with
  | .completes t status body json =>
    if deadline ≤ t then .jsError "AbortError" abortMessage
    else .resolved status body json
  | .fails t msg =>
    if deadline ≤ t then .jsError "AbortError" abortMessage
    else .jsError "TypeError" msg

/-- `response.ok`: status in the inclusive range 200-299. -/
def statusOk (s : Nat) : Bool := decide (200 ≤ s ∧ s ≤ 299)

/-- The message of the error thrown at page.tsx lines 187-193. -/
def httpErrorMsg (status : Nat) (body : String) : String :=
  s!"API request failed with status {status}: {body}"

/-- The component state `handleSubmit` leaves behind: `error`,
`apiResponse`, `parsedResults` and the cleared loading flag. -/
structure UIState where
  isLoading : Bool
  error : Option String
  apiResponse : Option RespJson
  parsedResults : Option AllocationTable
deriving DecidableEq

/-- `handleSubmit` of page.tsx lines 152-241: validate, short-circuit on
rejection, fetch under the deadline, map a thrown error to `setError
(err.message)`, and on a 2xx response store the payload and parse its
embedded report. -/
def handleSubmit (es : List Nat) (files : List (Option CSVFile))
    (deadline : Nat) (b : TransportBehavior) : UIState :=
  let v := validateCSVFiles es files
  if v.valid then
    match fetchWithTimeout deadline b with
    | .resolved status body json =>
      if statusOk status then
        ⟨false, none, some json,
          match json.buddy_allocation_output with
          | some t => parseReport t
          | none => none⟩
      else ⟨false, some (httpErrorMsg status body), none, none⟩
    | .jsError _ msg => ⟨false, some msg, none, none⟩
  else ⟨false, v.error, none, none⟩

/-! ## Response projection (part_000 lines 302-307) -/

/-- One element of `apiResponse.dataset_results` as consumed by the
per-dataset summary card. -/
structure DatasetResult where
  dataset_name : String
  num_batches : Nat
  total_rows : Nat
  total_percentage_check : ℚ
deriving DecidableEq

/-- The class chosen at part_000 lines 304-305:
`Math.abs(dataset.total_percentage_check - 100) < 0.01` selects the green
(balanced) styling, otherwise red. -/
def percentageCheckClass (d : DatasetResult) : String :=
  if |d.total_percentage_check - 100| < 1 / 100 then "text-green-600"
  else "text-red-600"

/-! ## Concrete fixtures -/

/-- A row carrying both required columns. -/
def goodRow : ParsedRow := [("Day No.", "1"), ("Number of entries", "5")]

/-- A row missing the `"Number of entries"` column. -/
def partialRow : ParsedRow := [("Day No.", "2")]

/-- A well-formed upload. -/
def validFile : CSVFile := ⟨"data.csv", .ok [goodRow]⟩

/-- An upload whose first row is well-formed but whose second row lacks a
required column. -/
def mixedFile : CSVFile := ⟨"mixed.csv", .ok [goodRow, partialRow]⟩

/-! ## Helper lemmas about the validator loop -/

/-- A passing slot decomposes into a present file with a CSV name, a
successful tokenization and a passing column check. -/
lemma slotOk_elim (f? : Option CSVFile) (h : slotOk f? = true) :
    ∃ f data, f? = some f ∧ isCsvName f.name = true ∧
      f.parseOutcome = .ok data ∧ checkCols data = true := by
  cases f? with
  | none => simp [slotOk] at h
  | some f =>
    cases hp : f.parseOutcome with
    | error m => simp [slotOk, hp] at h
    | ok data =>
      simp only [slotOk, hp, Bool.and_eq_true] at h
      exact ⟨f, data, rfl, h.1, hp, h.2⟩

/-- A failing slot makes the whole loop return immediately with that
slot's error; nothing from the remaining slots is touched. -/
lemma validateGo_cons_fail (es : List Nat) (f? : Option CSVFile)
    (fs : List (Option CSVFile)) (hbad : slotOk f? = false) :
    validateGo es (f? :: fs) = ⟨false, [], slotError f?, slotReads f?⟩ := by
  cases f? with
  | none => rfl
  | some f =>
    by_cases hcsv : isCsvName f.name = true
    · cases hp : f.parseOutcome with
      | error m => simp [validateGo, slotError, slotReads, hcsv, hp]
      | ok data =>
        have hcc : checkCols data = false := by
          simpa [slotOk, hp, hcsv] using hbad
        simp [validateGo, slotError, slotReads, hcsv, hp, hcc]
    · have hcsv' : isCsvName f.name = false := by simpa using hcsv
      simp [validateGo, slotError, slotReads, hcsv']

/-- A passing slot contributes its dataset and the loop continues on the
remaining slots. -/
lemma validateGo_cons_ok (es : List Nat) (f : CSVFile) (data : List ParsedRow)
    (fs : List (Option CSVFile)) (hcsv : isCsvName f.name = true)
    (hp : f.parseOutcome = .ok data) (hcc : checkCols data = true) :
    validateGo es (some f :: fs) =
      (if (validateGo es.tail fs).valid then
        ⟨true, ⟨stripExt f.name, data, es.head?⟩ :: (validateGo es.tail fs).datasets,
          none, f.name :: (validateGo es.tail fs).tokenized⟩
      else ⟨false, [], (validateGo es.tail fs).error,
        f.name :: (validateGo es.tail fs).tokenized⟩) := by
  simp [validateGo, hcsv, hp, hcc]

/-- When every slot passes, the loop succeeds with the order-preserving
datasets and reads every file in slot order. -/
lemma validateGo_all_ok : ∀ (files : List (Option CSVFile)) (es : List Nat),
    (∀ g ∈ files, slotOk g = true) →
    validateGo es files = ⟨true, expectedDatasets es files, none, fileNames files⟩ := by
  intro files
  induction files with
  | nil => intro es _; rfl
  | cons g fs ih =>
    intro es hall
    obtain ⟨f, data, rfl, hcsv, hp, hcc⟩ := slotOk_elim g (hall g (by simp))
    rw [validateGo_cons_ok es f data fs hcsv hp hcc,
      ih es.tail (fun g hg => hall g (by simp [hg]))]
    simp [expectedDatasets, fileNames, rowsOf, hp]

/-- Conversely, a successful loop means every slot passed. -/
lemma validateGo_valid_elim : ∀ (files : List (Option CSVFile)) (es : List Nat),
    (validateGo es files).valid = true → ∀ g ∈ files, slotOk g = true := by
  intro files
  induction files with
  | nil => intro es _ g hg; simp at hg
  | cons g0 fs ih =>
    intro es hv g hg
    cases g0 with
    | none => simp [validateGo] at hv
    | some f =>
      by_cases hcsv : isCsvName f.name = true
      · cases hp : f.parseOutcome with
        | error m => simp [validateGo, hcsv, hp] at hv
        | ok data =>
          by_cases hcc : checkCols data = true
          · rw [validateGo_cons_ok es f data fs hcsv hp hcc] at hv
            cases hrest : (validateGo es.tail fs).valid with
            | false => rw [hrest] at hv; simp at hv
            | true =>
              rcases List.mem_cons.mp hg with rfl | hg'
              · simp [slotOk, hcsv, hp, hcc]
              · exact ih es.tail hrest g hg'
          · have hcc' : checkCols data = false := by simpa using hcc
            simp [validateGo, hcsv, hp, hcc'] at hv
      · have hcsv' : isCsvName f.name = false := by simpa using hcsv
        simp [validateGo, hcsv'] at hv

/-- A clean prefix followed by a failing slot: the loop reads exactly the
prefix files (plus the failing file when its name let it reach the
tokenizer), reports the failing slot's error, and never looks at the
suffix. -/
lemma validateGo_short_circuit : ∀ (pre : List (Option CSVFile)) (es : List Nat)
    (f? : Option CSVFile) (suf : List (Option CSVFile)),
    (∀ g ∈ pre, slotOk g = true) → slotOk f? = false →
    validateGo es (pre ++ f? :: suf) =
      ⟨false, [], slotError f?, fileNames pre ++ slotReads f?⟩ := by
  intro pre
  induction pre with
  | nil =>
    intro es f? suf _ hbad
    simpa [fileNames] using validateGo_cons_fail es f? suf hbad
  | cons g pre' ih =>
    intro es f? suf hall hbad
    obtain ⟨f, data, rfl, hcsv, hp, hcc⟩ := slotOk_elim g (hall g (by simp))
    rw [List.cons_append, validateGo_cons_ok es f data _ hcsv hp hcc,
      ih es.tail f? suf (fun g hg => hall g (by simp [hg])) hbad]
    simp [fileNames]

/-- Index access through `tail` shifts by one. -/
lemma getElem?_tail {α : Type} (l : List α) (j : Nat) : l.tail[j]? = l[j + 1]? := by
  cases l <;> simp

/-- `head?` is access at index zero. -/
lemma head?_eq_getElem?_zero {α : Type} (l : List α) : l.head? = l[0]? := by
  cases l <;> simp

/-- Pointwise description of the order-preserving datasets: the element
at position `i` comes from the file in slot `i` and carries the entry
size at position `i` of the entry-size state. -/
lemma expectedDatasets_getElem : ∀ (files : List (Option CSVFile)) (es : List Nat),
    (∀ g ∈ files, slotOk g = true) → ∀ i, i < files.length →
    ∃ f, files[i]? = some (some f) ∧
      (expectedDatasets es files)[i]? = some ⟨stripExt f.name, rowsOf f, es[i]?⟩ := by
  intro files
  induction files with
  | nil => intro es _ i hi; simp at hi
  | cons g fs ih =>
    intro es hall i hi
    obtain ⟨f, data, rfl, hcsv, hp, hcc⟩ := slotOk_elim g (hall g (by simp))
    cases i with
    | zero =>
      refine ⟨f, by simp, ?_⟩
      simp [expectedDatasets, head?_eq_getElem?_zero]
    | succ j =>
      have hj : j < fs.length := by simpa using hi
      obtain ⟨f', h1, h2⟩ := ih es.tail (fun g hg => hall g (by simp [hg])) j hj
      refine ⟨f', by simpa using h1, ?_⟩
      rw [← getElem?_tail]
      simpa [expectedDatasets] using h2

/-- The order-preserving datasets have one element per slot. -/
lemma expectedDatasets_length : ∀ (files : List (Option CSVFile)) (es : List Nat),
    (∀ g ∈ files, slotOk g = true) →
    (expectedDatasets es files).length = files.length := by
  intro files
  induction files with
  | nil => intro es _; rfl
  | cons g fs ih =>
    intro es hall
    obtain ⟨f, data, rfl, hcsv, hp, hcc⟩ := slotOk_elim g (hall g (by simp))
    simpa [expectedDatasets] using ih es.tail (fun g hg => hall g (by simp [hg]))

/-! ## Helper lemmas about the report parser -/

/-- Outside the results region, a non-marker line leaves the loop state
untouched. -/
lemma parseLine_not_inResults (st : ParseState) (l : String)
    (hst : st.inResults = false) (hl : jsTrim l ≠ "Results:") :
    parseLine st l = st := by
  simp [parseLine, hst, hl]

/-- With no marker line anywhere, the whole loop never changes state. -/
lemma foldl_no_marker : ∀ (lines : List String) (st : ParseState),
    st.inResults = false → (∀ l ∈ lines, jsTrim l ≠ "Results:") →
    lines.foldl parseLine st = st := by
  intro lines
  induction lines with
  | nil => intro st _ _; rfl
  | cons l ls ih =>
    intro st hst hall
    rw [List.foldl_cons, parseLine_not_inResults st l hst (hall l (by simp))]
    exact ih st hst (fun l' hl' => hall l' (by simp [hl']))

/-- Inside the results region, a line containing `"Block Size"` always
(re)assigns the header from its own cells and changes nothing else — in
particular it is never pushed as a data row. -/
lemma parseLine_header (st : ParseState) (l : String)
    (h1 : st.inResults = true) (h2 : jsTrim l ≠ "Results:")
    (h3 : strIncludes l "Block Size" = true) :
    parseLine st l = { st with headerLine := some (jsSplit '\t' (jsTrim l)) } := by
  simp [parseLine, h1, h2, h3]

/-- Exact characterization of data-row acceptance once a header is in
place: the row is appended iff the line is not the marker, does not
contain `"Block Size"`, is non-empty after trimming, and its trimmed
tab-split cell count equals the current header length. -/
lemma parseLine_accept_iff (st : ParseState) (l : String) (hd : List String)
    (h1 : st.inResults = true) (h2 : st.headerLine = some hd) :
    (parseLine st l).resultsTable = st.resultsTable ++ [jsSplit '\t' (jsTrim l)] ↔
      (jsTrim l ≠ "Results:" ∧ strIncludes l "Block Size" = false ∧
        jsTrim l ≠ "" ∧ (jsSplit '\t' (jsTrim l)).length = hd.length) := by
  have hne : ∀ x : List String, st.resultsTable ≠ st.resultsTable ++ [x] := by
    intro x hx
    have := congrArg List.length hx
    simp at this
  by_cases hR : jsTrim l = "Results:"
  · have hstep : parseLine st l = { st with inResults := true } := by
      simp [parseLine, hR]
    rw [hstep]
    constructor
    · intro hx; exact absurd hx (hne _)
    · rintro ⟨ha, _⟩; exact absurd hR ha
  · by_cases hB : strIncludes l "Block Size" = true
    · rw [parseLine_header st l h1 hR hB]
      constructor
      · intro hx; exact absurd hx (hne _)
      · rintro ⟨_, hb, _⟩; rw [hB] at hb; exact absurd hb (by simp)
    · have hB' : strIncludes l "Block Size" = false := by simpa using hB
      by_cases hE : jsTrim l = ""
      · have hstep : parseLine st l = st := by
          simp [parseLine, hR, hB', hE, h1]
        rw [hstep]
        constructor
        · intro hx; exact absurd hx (hne _)
        · rintro ⟨_, _, he, _⟩; exact absurd hE he
      · have hsome : st.headerLine.isSome = true := by rw [h2]; rfl
        by_cases hc : (jsSplit '\t' (jsTrim l)).length = hd.length
        · have hstep : parseLine st l =
              { st with resultsTable := st.resultsTable ++ [jsSplit '\t' (jsTrim l)] } := by
            simp [parseLine, hR, hB', hE, h1, hsome, h2, hc]
          rw [hstep]
          simp [hR, hB', hE, hc]
        · have hstep : parseLine st l = st := by
            simp [parseLine, hR, hB', hE, h1, hsome, h2, hc]
          rw [hstep]
          constructor
          · intro hx; exact absurd hx (hne _)
          · rintro ⟨_, _, _, hcl⟩; exact absurd hcl hc

/-- Every member of the order-preserving datasets comes from a present
file in the slot list. -/
lemma expectedDatasets_mem : ∀ (files : List (Option CSVFile)) (es : List Nat)
    (d : Dataset), d ∈ expectedDatasets es files →
    ∃ f w, some f ∈ files ∧ d = ⟨stripExt f.name, rowsOf f, w⟩ := by
  intro files
  induction files with
  | nil => intro es d hd; simp [expectedDatasets] at hd
  | cons g fs ih =>
    intro es d hd
    cases g with
    | none =>
      obtain ⟨f, w, hmem, hdef⟩ := ih es.tail d (by simpa [expectedDatasets] using hd)
      exact ⟨f, w, by simp [hmem], hdef⟩
    | some f0 =>
      rcases List.mem_cons.mp (by simpa [expectedDatasets] using hd) with h | h
      · exact ⟨f0, es.head?, by simp, h⟩
      · obtain ⟨f, w, hmem, hdef⟩ := ih es.tail d h
        exact ⟨f, w, by simp [hmem], hdef⟩

/-- A passing column check means the rows are non-empty and the first
row carries both required keys. -/
lemma checkCols_elim (data : List ParsedRow) (h : checkCols data = true) :
    ∃ r rs, data = r :: rs ∧ hasKey r "Day No." = true ∧
      hasKey r "Number of entries" = true := by
  cases data with
  | nil => simp [checkCols] at h
  | cons r rs =>
    simp only [checkCols, List.head?_cons, Bool.and_eq_true] at h
    exact ⟨r, rs, rfl, h.1, h.2⟩

/-! ## Claim C1 -/

/-- C1: when the wall-clock deadline elapses before the transport
completes, the awaited call rejects with the abort error — a distinct
classification from the `TypeError` a pre-deadline transport failure
produces — `handleSubmit` delivers the abort message as the error
outcome, and neither a payload nor a parsed table is ever surfaced as
success. -/
theorem timeout_delivers_abort_never_success (deadline : Nat)
    (b : TransportBehavior) (hd : deadline ≤ behaviorTime b) :
    fetchWithTimeout deadline b = .jsError "AbortError" abortMessage ∧
    (∀ es files, (validateCSVFiles es files).valid = true →
      handleSubmit es files deadline b = ⟨false, some abortMessage, none, none⟩) ∧
    (∀ t msg, t < deadline →
      fetchWithTimeout deadline (.fails t msg) = .jsError "TypeError" msg) ∧
    ("AbortError" : String) ≠ "TypeError" := by
  have h1 : fetchWithTimeout deadline b = .jsError "AbortError" abortMessage := by
    cases b with
    | completes t status body json =>
      simp only [behaviorTime] at hd
      simp [fetchWithTimeout, hd]
    | fails t msg =>
      simp only [behaviorTime] at hd
      simp [fetchWithTimeout, hd]
  refine ⟨h1, ?_, ?_, by decide⟩
  · intro es files hv
    simp [handleSubmit, hv, h1]
  · intro t msg ht
    have hnle : ¬ deadline ≤ t := not_le.mpr ht
    simp [fetchWithTimeout, hnle]

/-- Witness: at the source's 1800000 ms deadline with a transport that
would only complete at that instant, the outcome is the abort message and
no success state. -/
theorem timeout_delivers_abort_never_success_witness :
    handleSubmit [1] [some validFile] requestTimeoutMs
        (.completes requestTimeoutMs 200 "" ⟨none⟩) =
      ⟨false, some abortMessage, none, none⟩ :=
  (timeout_delivers_abort_never_success requestTimeoutMs
      (.completes requestTimeoutMs 200 "" ⟨none⟩) (Nat.le_refl _)).2.1
    [1] [some validFile] (by decide)

/-! ## Claim C2 -/

/-- C2 counterexample: with slot 1 filled and slot 2 absent, the slot-1
file IS handed to the tokenizer (the claim says no file is ever read),
and the error is the same fixed string produced when slot 1 itself is the
absent one — the message cannot identify which slot is missing. -/
theorem missing_slot_generic_message_counterexample :
    (validateCSVFiles [1, 1] [some validFile, none]).tokenized = ["data.csv"] ∧
    (validateCSVFiles [1, 1] [some validFile, none]).error = some missingFilesMsg ∧
    (validateCSVFiles [1] [(none : Option CSVFile)]).error = some missingFilesMsg := by
  refine ⟨by decide, by decide, by decide⟩

/-- C2 amended: validation fails at the first absent slot with the fixed
generic message `"Please upload all required CSV files."` (which does not
name the slot), tokenizes exactly the files of the valid slots before it,
and never reads any file at or after the absent slot. -/
theorem validate_missing_slot_short_circuit (es : List Nat)
    (pre suf : List (Option CSVFile)) (hall : ∀ g ∈ pre, slotOk g = true) :
    validateCSVFiles es (pre ++ none :: suf) =
      ⟨false, [], some missingFilesMsg, fileNames pre⟩ := by
  have h := validateGo_short_circuit pre es none suf hall rfl
  simpa [slotError, slotReads] using h

/-- Witness: one valid file before an absent slot — only the earlier file
is tokenized. -/
theorem validate_missing_slot_short_circuit_witness :
    validateCSVFiles [1, 1] ([some validFile] ++ none :: []) =
      ⟨false, [], some missingFilesMsg, fileNames [some validFile]⟩ :=
  validate_missing_slot_short_circuit [1, 1] [some validFile] [] (by decide)

/-! ## Claim C3 -/

/-- C3 counterexample: the first post-marker line containing
`"Block Size"` is `"zz Block Size\tB"` (splitting to
`["zz Block Size", "B"]`), yet the parsed headers come from the LAST such
line — a later `"Block Size"` line does change the headers. -/
theorem header_first_line_counterexample :
    parseReport "Results:\nzz Block Size\tB\n1\t2\nBlock Size\tC\tD" =
      some ⟨["Block Size", "C", "D"], [["1", "2"]]⟩ ∧
    jsSplit '\t' (jsTrim "zz Block Size\tB") = ["zz Block Size", "B"] ∧
    (["Block Size", "C", "D"] : List String) ≠ ["zz Block Size", "B"] := by
  refine ⟨by decide, by decide, by decide⟩

/-- C3 amended: every post-marker line containing `"Block Size"`
(re)assigns the headers from its own trimmed tab-split cells, so the
headers in force at the end are those of the LAST such line, not the
first. -/
theorem header_line_last_wins :
    (∀ st l, st.inResults = true → jsTrim l ≠ "Results:" →
      strIncludes l "Block Size" = true →
      parseLine st l = { st with headerLine := some (jsSplit '\t' (jsTrim l)) }) ∧
    parseReport "Results:\nzz Block Size\tB\n1\t2\nBlock Size\tC\tD" =
      some ⟨["Block Size", "C", "D"], [["1", "2"]]⟩ :=
  ⟨parseLine_header, by decide⟩

/-- Witness: a concrete in-region `"Block Size"` line reassigns the
header. -/
theorem header_line_last_wins_witness :
    parseLine ⟨true, some ["A"], []⟩ "Block Size\tX" =
      { (⟨true, some ["A"], []⟩ : ParseState) with
        headerLine := some (jsSplit '\t' (jsTrim "Block Size\tX")) } :=
  header_line_last_wins.1 ⟨true, some ["A"], []⟩ "Block Size\tX" rfl
    (by decide) (by decide)

/-! ## Claim C4 -/

/-- C4 counterexample: with the initial entry-size state — the user never
supplied any weight — the validated dataset still carries `entry_size`,
defaulted to 1, instead of omitting the field. -/
theorem entry_size_defaulted_counterexample :
    (validateCSVFiles (initialEntrySizes 1) [some validFile]).datasets =
      [⟨"data", [goodRow], some 1⟩] ∧
    (⟨"data", [goodRow], some 1⟩ : Dataset).entry_size ≠ none := by
  refine ⟨by decide, by decide⟩

/-- C4 amended: in the entry-size variant the element built for slot `i`
always carries `entry_size` equal to the entry-size state at `i` — it is
never omitted for an in-range slot; the state defaults every slot to 1
before any user input, and the change handler falls back to 1 on empty or
zero input. -/
theorem entry_size_always_present :
    (∀ es files, (∀ g ∈ files, slotOk g = true) → ∀ i, i < files.length →
      ∃ d, (validateCSVFiles es files).datasets[i]? = some d ∧
        d.entry_size = es[i]?) ∧
    (∀ n i, i < n → (initialEntrySizes n)[i]? = some 1) ∧
    parseIntOr1 "" = 1 ∧ parseIntOr1 "0" = 1 := by
  refine ⟨?_, ?_, by decide, by decide⟩
  · intro es files hall i hi
    obtain ⟨f, _, h2⟩ := expectedDatasets_getElem files es hall i hi
    refine ⟨⟨stripExt f.name, rowsOf f, es[i]?⟩, ?_, rfl⟩
    rw [validateCSVFiles, validateGo_all_ok files es hall]
    exact h2
  · intro n i hi
    simp [initialEntrySizes, List.getElem?_replicate, hi]

/-- Witness: slot 0 with state `[5]` yields a dataset whose `entry_size`
is the state entry. -/
theorem entry_size_always_present_witness :
    ∃ d, (validateCSVFiles [5] [some validFile]).datasets[0]? = some d ∧
      d.entry_size = [5][0]? :=
  entry_size_always_present.1 [5] [some validFile] (by decide) 0 (by decide)

/-! ## Claim C5 -/

/-- C5 counterexample: a file whose first row has both required keys but
whose second row lacks `"Number of entries"` validates successfully, so
the produced dataset violates the claimed every-row invariant. -/
theorem later_row_missing_key_counterexample :
    (validateCSVFiles [1] [some mixedFile]).valid = true ∧
    (validateCSVFiles [1] [some mixedFile]).datasets =
      [⟨"mixed", [goodRow, partialRow], some 1⟩] ∧
    hasKey partialRow "Number of entries" = false := by
  refine ⟨by decide, by decide, by decide⟩

/-- C5 amended: every dataset produced by a successful validation has
non-empty rows whose FIRST row carries both required keys (later rows are
not checked), and its name is a present source file's name with the
trailing extension removed. -/
theorem dataset_invariant_first_row (es : List Nat)
    (files : List (Option CSVFile))
    (hv : (validateCSVFiles es files).valid = true) :
    ∀ d ∈ (validateCSVFiles es files).datasets,
      d.data ≠ [] ∧
      (∃ r rs, d.data = r :: rs ∧ hasKey r "Day No." = true ∧
        hasKey r "Number of entries" = true) ∧
      ∃ f, some f ∈ files ∧ d.name = stripExt f.name ∧ d.data = rowsOf f := by
  have hall := validateGo_valid_elim files es hv
  intro d hd
  rw [validateCSVFiles, validateGo_all_ok files es hall] at hd
  obtain ⟨f, w, hmem, rfl⟩ := expectedDatasets_mem files es d hd
  obtain ⟨f2, data, heq, _, hp, hcc⟩ := slotOk_elim (some f) (hall (some f) hmem)
  have hf : f = f2 := by injection heq
  subst hf
  obtain ⟨r, rs, hdata, hk1, hk2⟩ := checkCols_elim data hcc
  have hrows : rowsOf f = data := by simp [rowsOf, hp]
  refine ⟨by simp [hrows, hdata], ⟨r, rs, by simp [hrows, hdata], hk1, hk2⟩,
    f, hmem, rfl, rfl⟩

/-- Witness: the invariant instantiated at the dataset produced from the
single valid fixture file. -/
theorem dataset_invariant_first_row_witness :
    (⟨"data", [goodRow], some 1⟩ : Dataset).data ≠ [] ∧
      (∃ r rs, (⟨"data", [goodRow], some 1⟩ : Dataset).data = r :: rs ∧
        hasKey r "Day No." = true ∧ hasKey r "Number of entries" = true) ∧
      ∃ f, some f ∈ [some validFile] ∧
        (⟨"data", [goodRow], some 1⟩ : Dataset).name = stripExt f.name ∧
        (⟨"data", [goodRow], some 1⟩ : Dataset).data = rowsOf f :=
  dataset_invariant_first_row [1] [some validFile] (by decide)
    ⟨"data", [goodRow], some 1⟩ (by decide)

/-! ## Claim C6 -/

/-- C6 counterexample: the line `"Block Size\t5"` after the header is
non-empty and its tab-split cell count equals the headers' length (2),
yet it is NOT accepted as a data row — it replaces the headers instead —
so "accepted exactly when the cell count matches" fails. -/
theorem matching_count_line_not_accepted_counterexample :
    parseReport "Results:\nBlock Size\tCount\n4\t10\nBlock Size\t5" =
      some ⟨["Block Size", "5"], [["4", "10"]]⟩ ∧
    (jsSplit '\t' (jsTrim "Block Size\t5")).length =
      (["Block Size", "Count"] : List String).length ∧
    ¬ (["Block Size", "5"] ∈ [[("4" : String), "10"]]) := by
  refine ⟨by decide, by decide, by decide⟩

/-- C6 amended: once a header is in place, a line is appended as a data
row exactly when it is not the marker, does not contain `"Block Size"`,
trims to a non-empty string, and its trimmed tab-split cell count equals
the header length; accepted rows keep line order, mismatched rows are
silently dropped while sibling well-formed rows remain, and the claim's
concrete report evaluates exactly as stated. -/
theorem data_row_acceptance_iff :
    (∀ st l hd, st.inResults = true → st.headerLine = some hd →
      ((parseLine st l).resultsTable =
          st.resultsTable ++ [jsSplit '\t' (jsTrim l)] ↔
        (jsTrim l ≠ "Results:" ∧ strIncludes l "Block Size" = false ∧
          jsTrim l ≠ "" ∧ (jsSplit '\t' (jsTrim l)).length = hd.length))) ∧
    parseReport "Results:\nBlock Size\tCount\n4\t10\n8\t5" =
      some ⟨["Block Size", "Count"], [["4", "10"], ["8", "5"]]⟩ ∧
    parseReport "Results:\nBlock Size\tCount\tExtra\n4\t10\n1\t2\t3" =
      some ⟨["Block Size", "Count", "Extra"], [["1", "2", "3"]]⟩ := by
  refine ⟨?_, by decide, by decide⟩
  intro st l hd h1 h2
  exact parseLine_accept_iff st l hd h1 h2

/-- Witness: the acceptance characterization instantiated at a concrete
state and line. -/
theorem data_row_acceptance_iff_witness :
    (parseLine ⟨true, some ["H1", "H2"], []⟩ "a\tb").resultsTable =
        ([] : List (List String)) ++ [jsSplit '\t' (jsTrim "a\tb")] ↔
      (jsTrim "a\tb" ≠ "Results:" ∧ strIncludes "a\tb" "Block Size" = false ∧
        jsTrim "a\tb" ≠ "" ∧ (jsSplit '\t' (jsTrim "a\tb")).length =
          (["H1", "H2"] : List String).length) :=
  data_row_acceptance_iff.1 ⟨true, some ["H1", "H2"], []⟩ "a\tb" ["H1", "H2"]
    rfl rfl

/-! ## Claim C7 -/

/-- C7: a report text with no marker line parses to absent; a run whose
accepted-row table ends empty parses to absent; and a successful call
whose report parses to absent leaves the submit state with no error — an
absent table is a normal displayable state, not a failure. -/
theorem parse_report_absent_cases :
    (∀ text, (∀ l ∈ jsSplit '\n' text, jsTrim l ≠ "Results:") →
      parseReport text = none) ∧
    (∀ text, (parseRun text).resultsTable = [] → parseReport text = none) ∧
    (∀ es files deadline b status body json,
      (validateCSVFiles es files).valid = true →
      fetchWithTimeout deadline b = .resolved status body json →
      statusOk status = true →
      (match json.buddy_allocation_output with
       | some t => parseReport t
       | none => none) = none →
      handleSubmit es files deadline b = ⟨false, none, some json, none⟩) := by
  refine ⟨?_, ?_, ?_⟩
  · intro text hall
    have hrun : parseRun text = initState := foldl_no_marker _ initState rfl hall
    simp [parseReport, hrun, initState]
  · intro text htab
    cases hh : (parseRun text).headerLine with
    | none => simp [parseReport, hh]
    | some h => simp [parseReport, hh, htab]
  · intro es files deadline b status body json hv hf hok hparse
    simp [handleSubmit, hv, hf, hok, hparse]

/-- Witness: header-shaped content without any marker line still parses
to absent. -/
theorem parse_report_absent_cases_witness :
    parseReport "Block Size\tCount\n4\t10" = none :=
  parse_report_absent_cases.1 "Block Size\tCount\n4\t10" (by decide)

/-! ## Claim C8 -/

/-- C8: the validator processes slots strictly in slot order — on
all-valid input it succeeds with one dataset per slot, in slot order and
built from that slot's file; at the first failing slot it stops with that
slot's error, collects no partial datasets, and tokenizes nothing from
the suffix. -/
theorem validate_order_and_short_circuit :
    (∀ es files, (∀ g ∈ files, slotOk g = true) →
      validateCSVFiles es files =
        ⟨true, expectedDatasets es files, none, fileNames files⟩ ∧
      (expectedDatasets es files).length = files.length ∧
      (∀ i, i < files.length → ∃ f, files[i]? = some (some f) ∧
        (expectedDatasets es files)[i]? =
          some ⟨stripExt f.name, rowsOf f, es[i]?⟩)) ∧
    (∀ es pre f? suf, (∀ g ∈ pre, slotOk g = true) → slotOk f? = false →
      validateCSVFiles es (pre ++ f? :: suf) =
        ⟨false, [], slotError f?, fileNames pre ++ slotReads f?⟩) := by
  constructor
  · intro es files hall
    exact ⟨validateGo_all_ok files es hall, expectedDatasets_length files es hall,
      expectedDatasets_getElem files es hall⟩
  · intro es pre f? suf hall hbad
    exact validateGo_short_circuit pre es f? suf hall hbad

/-- Witness: two valid files validate in slot order with both datasets. -/
theorem validate_order_and_short_circuit_witness :
    validateCSVFiles [1, 2] [some validFile, some mixedFile] =
      ⟨true, expectedDatasets [1, 2] [some validFile, some mixedFile], none,
        fileNames [some validFile, some mixedFile]⟩ :=
  (validate_order_and_short_circuit.1 [1, 2] [some validFile, some mixedFile]
    (by decide)).1

/-! ## Claim C9 -/

/-- C9: the summary styles a dataset's percentage total as balanced
(green) exactly when the exposed raw sum differs from 100 by strictly
less than 0.01, as unbalanced (red) otherwise, and the two flags are
distinct strings. -/
theorem percentage_balance_flag :
    (∀ d : DatasetResult, percentageCheckClass d = "text-green-600" ↔
      |d.total_percentage_check - 100| < 1 / 100) ∧
    (∀ d : DatasetResult, percentageCheckClass d = "text-red-600" ↔
      ¬ |d.total_percentage_check - 100| < 1 / 100) ∧
    ("text-green-600" : String) ≠ "text-red-600" := by
  refine ⟨?_, ?_, by decide⟩
  · intro d
    constructor
    · intro hg
      by_contra hlt
      rw [percentageCheckClass, if_neg hlt] at hg
      exact absurd hg (by decide)
    · intro hlt
      rw [percentageCheckClass, if_pos hlt]
  · intro d
    constructor
    · intro hg hlt
      rw [percentageCheckClass, if_pos hlt] at hg
      exact absurd hg (by decide)
    · intro hlt
      rw [percentageCheckClass, if_neg hlt]

/-- Witness: a raw sum of exactly 100 is flagged balanced. -/
theorem percentage_balance_flag_witness :
    percentageCheckClass ⟨"d1", 2, 10, 100⟩ = "text-green-600" :=
  (percentage_balance_flag.1 ⟨"d1", 2, 10, 100⟩).mpr (by norm_num)

/-! ## Claim C10 -/

/-- C10: inside the results region, any line containing `"Block Size"` is
consumed as a header line and never accepted as a data row, even when its
cell count equals the current headers' length — such a line is excluded
from the table and replaces the headers instead. -/
theorem block_size_line_always_header :
    (∀ st l, st.inResults = true → jsTrim l ≠ "Results:" →
      strIncludes l "Block Size" = true →
      (parseLine st l).resultsTable = st.resultsTable ∧
      (parseLine st l).headerLine = some (jsSplit '\t' (jsTrim l))) ∧
    parseReport "Results:\nBlock Size\tCount\n4\t10\nBig Block Size\t9" =
      some ⟨["Big Block Size", "9"], [["4", "10"]]⟩ ∧
    (jsSplit '\t' (jsTrim "Big Block Size\t9")).length =
      (["Block Size", "Count"] : List String).length ∧
    ¬ (["Big Block Size", "9"] ∈ [[("4" : String), "10"]]) := by
  refine ⟨?_, by decide, by decide, by decide⟩
  intro st l h1 h2 h3
  rw [parseLine_header st l h1 h2 h3]
  exact ⟨rfl, rfl⟩

/-- Witness: a concrete in-region `"Block Size"` line leaves the table
unchanged and becomes the header. -/
theorem block_size_line_always_header_witness :
    (parseLine ⟨true, some ["P", "Q"], [["4", "10"]]⟩ "x Block Size\ty").resultsTable =
        [["4", "10"]] ∧
      (parseLine ⟨true, some ["P", "Q"], [["4", "10"]]⟩ "x Block Size\ty").headerLine =
        some (jsSplit '\t' (jsTrim "x Block Size\ty")) :=
  block_size_line_always_header.1 ⟨true, some ["P", "Q"], [["4", "10"]]⟩
    "x Block Size\ty" rfl (by decide) (by decide)

end MLDPBS
